import Mathlib

/-!
Verification of the friender backend's matching core and like/dislike
routes (`app.py`), as a shallow embedding in Lean 4.

The route handlers (`get_potential_friends`, `like_potential_friend`,
`dislike_potential_friend`) are translated directly from `app.py`.
The matching filter `User.get_list_of_potential_friends` and the
haversine distance live in `models.py`, which is not among the sources;
they are modelled from the specification (§4.1), with the distance
function kept as an explicit parameter.
-/

namespace Friender

/-- Geographic coordinates (latitude, longitude) as stored on a user
record (the `coordinates` column, derived from the zip code). -/
structure Coords where
  lat : ℚ
  lng : ℚ
deriving DecidableEq, Repr

/-- The fields of the `User` model that the matching filter and the
routes in `app.py` read: identity, username (used for the auth check),
optional coordinates, and the friend-search radius in miles. -/
structure User where
  id : ℕ
  username : String
  coordinates : Option Coords
  friend_radius_miles : ℚ
deriving DecidableEq, Repr

/-- Polarity of a recorded decision: a like or a dislike. -/
inductive Polarity where
  | like
  | dislike
deriving DecidableEq, Repr

/-- A directed decision from one user (`actor`) to another (`target`),
tagged with its polarity.  Corresponds to one row of the `Like` or
`Dislike` relation. -/
structure Decision where
  actor : ℕ
  target : ℕ
  polarity : Polarity
deriving DecidableEq, Repr

/-- Whether some decision of either polarity from `a` to `t` is
recorded in `ds`. -/
def hasDecision (ds : List Decision) (a t : ℕ) : Bool :=
  ds.any (fun d => d.actor == a && d.target == t)

/-- Whether some dislike from `a` to `t` is recorded in `ds`. -/
def hasDislike (ds : List Decision) (a t : ℕ) : Bool :=
  ds.any (fun d =>
    d.actor == a && d.target == t && d.polarity == Polarity.dislike)

/-- Modelled from the spec: the per-candidate test of
`User.get_list_of_potential_friends` (in `models.py`, absent from the
sources).  Spec §4.1: a candidate is included iff (1) it is not the
requester, (2) the requester has recorded no decision of either
polarity toward it, (3) it has recorded no dislike toward the
requester, and (4) both coordinates are present and the distance is
within both parties' radii (§3.6: a party with missing coordinates is
excluded silently).  `dist` stands for the haversine distance in
miles. -/
def eligible (dist : Coords → Coords → ℚ) (u c : User)
    (ds : List Decision) : Bool :=
  c.id != u.id &&
  !(hasDecision ds u.id c.id) &&
  !(hasDislike ds c.id u.id) &&
  (match u.coordinates, c.coordinates with
   | some uc, some cc =>
       decide (dist uc cc ≤ u.friend_radius_miles) &&
       decide (dist uc cc ≤ c.friend_radius_miles)
   | _, _ => false)

/-- Modelled from the spec: `User.get_list_of_potential_friends`
(in `models.py`, absent from the sources) as the contract of §4.1,
`potential_friends(current_user, all_users, decisions)`: the candidate
pool filtered by `eligible`, in pool order. -/
def potential_friends (dist : Coords → Coords → ℚ) (u : User)
    (pool : List User) (ds : List Decision) : List User :=
  pool.filter (fun c => eligible dist u c ds)

/-- The database state the routes read and write: the user table and
the like/dislike relations, each row an ordered pair
(actor id, target id). -/
structure DB where
  users : List User
  likes : List (ℕ × ℕ)
  dislikes : List (ℕ × ℕ)
deriving DecidableEq, Repr

/-- The decision set held in a database state: its like rows and its
dislike rows, tagged with their polarity. -/
def decisionsOf (db : DB) : List Decision :=
  db.likes.map (fun p => ⟨p.1, p.2, Polarity.like⟩) ++
  db.dislikes.map (fun p => ⟨p.1, p.2, Polarity.dislike⟩)

/-- `User.query.get_or_404(uid)`: the user with the given id, when one
exists. -/
def findUser (db : DB) (uid : ℕ) : Option User :=
  db.users.find? (fun x => x.id == uid)

/-- Outcome of the potentials route: the `invalid-credentials` error
response, the 404 from `get_or_404`, or the serialized candidate
list. -/
inductive PotResult where
  | invalidCredentials
  | notFound
  | ok (options : List User)
deriving DecidableEq, Repr

/-- The route `GET /users/<user_id>/potentials` (`app.py` lines
192–223).  `gUser` is `g.user` as set by `add_user_to_g`.  If no user
is logged in, or the requested user's username differs from the
logged-in user's, the route answers `invalid-credentials`; otherwise
it returns the candidate list.  The route issues no commit, so the
database is returned unchanged. -/
def get_potential_friends (dist : Coords → Coords → ℚ) (db : DB)
    (gUser : Option User) (user_id : ℕ) : PotResult × DB :=
  match gUser with
  | none => (PotResult.invalidCredentials, db)
  | some gu =>
    match findUser db user_id with
    | none => (PotResult.notFound, db)
    | some current_user =>
      if current_user.username ≠ gu.username then
        (PotResult.invalidCredentials, db)
      else
        (PotResult.ok
          (potential_friends dist current_user db.users (decisionsOf db)),
         db)

/-- Outcome of the like/dislike routes: the `invalid-credentials`
error, the 404 from `get_or_404`, the `user-not-potential-friend`
error, or the success statuses `user-liked` / `user-disliked`. -/
inductive LikeResult where
  | invalidCredentials
  | notFound
  | notPotentialFriend
  | liked
  | disliked
deriving DecidableEq, Repr

/-- The route `POST /users/like/<other_id>` (`app.py` lines 284–308).
With no logged-in user it answers `invalid-credentials`.  Otherwise it
recomputes the logged-in user's candidate list, looks up the target,
rejects a target outside the list with `user-not-potential-friend`,
and on success appends one row to the likes relation and commits. -/
def like_potential_friend (dist : Coords → Coords → ℚ) (db : DB)
    (gUser : Option User) (other_id : ℕ) : LikeResult × DB :=
  match gUser with
  | none => (LikeResult.invalidCredentials, db)
  | some gu =>
    let user_options := potential_friends dist gu db.users (decisionsOf db)
    match findUser db other_id with
    | none => (LikeResult.notFound, db)
    | some other_user =>
      if other_user ∉ user_options then
        (LikeResult.notPotentialFriend, db)
      else
        (LikeResult.liked,
         { db with likes := db.likes ++ [(gu.id, other_user.id)] })

/-- The route `POST /users/dislike/<other_id>` (`app.py` lines
311–336): identical to the like route except that on success it
appends one row to the dislikes relation. -/
def dislike_potential_friend (dist : Coords → Coords → ℚ) (db : DB)
    (gUser : Option User) (other_id : ℕ) : LikeResult × DB :=
  match gUser with
  | none => (LikeResult.invalidCredentials, db)
  | some gu =>
    let user_options := potential_friends dist gu db.users (decisionsOf db)
    match findUser db other_id with
    | none => (LikeResult.notFound, db)
    | some other_user =>
      if other_user ∉ user_options then
        (LikeResult.notPotentialFriend, db)
      else
        (LikeResult.disliked,
         { db with dislikes := db.dislikes ++ [(gu.id, other_user.id)] })

/-! Sample data used by the witness theorems. -/

/-- A degenerate distance function (every pair at distance 0), a valid
instance of the abstract haversine parameter. -/
def dist0 : Coords → Coords → ℚ := fun _ _ => 0

/-- Sample user with coordinates and a 5-mile radius. -/
def alice : User :=
  { id := 1, username := "alice", coordinates := some ⟨0, 0⟩,
    friend_radius_miles := 5 }

/-- Sample user with coordinates and a 10-mile radius. -/
def bob : User :=
  { id := 2, username := "bob", coordinates := some ⟨1, 1⟩,
    friend_radius_miles := 10 }

/-- Sample user with missing coordinates. -/
def carol : User :=
  { id := 3, username := "carol", coordinates := none,
    friend_radius_miles := 5 }

/-- A database holding only `alice`, with no decisions. -/
def dbA : DB := ⟨[alice], [], []⟩

/-- A database holding `alice` and `bob`, with no decisions. -/
def dbAB : DB := ⟨[alice, bob], [], []⟩

/-- `dbAB` after `alice` has liked `bob`. -/
def dbABliked : DB := ⟨[alice, bob], [(1, 2)], []⟩

/-! Helper lemmas. -/

/-- A member of the filtered candidate list passes the per-candidate
test. -/
lemma eligible_of_mem {dist : Coords → Coords → ℚ} {u c : User}
    {pool : List User} {ds : List Decision}
    (h : c ∈ potential_friends dist u pool ds) :
    eligible dist u c ds = true :=
  (List.mem_filter.mp h).2

/-- The potentials route never changes the database. -/
lemma gpf_snd (dist : Coords → Coords → ℚ) (db : DB)
    (gUser : Option User) (user_id : ℕ) :
    (get_potential_friends dist db gUser user_id).2 = db := by
  rcases gUser with _ | gu
  · rfl
  rcases h : findUser db user_id with _ | cu
  · simp [get_potential_friends, h]
  by_cases hu : cu.username ≠ gu.username
  · simp [get_potential_friends, h, hu]
  · simp [get_potential_friends, h, hu]

/-! Claim theorems. -/

/-- Claim C3: for every user `u`, every candidate pool and every
decision set, `potential_friends` never contains `u` itself. -/
theorem potential_friends_not_self (dist : Coords → Coords → ℚ)
    (u : User) (pool : List User) (ds : List Decision) :
    u ∉ potential_friends dist u pool ds := by
  intro h
  have he := eligible_of_mem h
  simp [eligible] at he

/-- Claim C7: `potential_friends` behind the potentials route is a pure
read/filter operation: for every input the database (every `User`
record and every decision row) is returned unchanged, nothing is
created, mutated or deleted. -/
theorem get_potential_friends_pure (dist : Coords → Coords → ℚ)
    (db : DB) (gUser : Option User) (user_id : ℕ) :
    (get_potential_friends dist db gUser user_id).2 = db :=
  gpf_snd dist db gUser user_id

/-- Claim C8: running the potentials route twice in a row, with
nothing else touching the user pool or the decision set in between,
produces exactly the same outcome — the same candidate list in the
same order. -/
theorem get_potential_friends_repeatable (dist : Coords → Coords → ℚ)
    (db : DB) (gUser : Option User) (user_id : ℕ) :
    get_potential_friends dist
        (get_potential_friends dist db gUser user_id).2 gUser user_id
      = get_potential_friends dist db gUser user_id := by
  rw [gpf_snd]

/-- Claim C10: the potentials route for user id `user_id` answers the
`invalid-credentials` error (so never a candidate list) when no user
is authenticated, and likewise when the authenticated user's username
differs from the username of the user with that id. -/
theorem potentials_own_list_only (dist : Coords → Coords → ℚ)
    (db : DB) (user_id : ℕ) :
    (get_potential_friends dist db none user_id).1
        = PotResult.invalidCredentials ∧
    (∀ gu cu : User, findUser db user_id = some cu →
      cu.username ≠ gu.username →
      (get_potential_friends dist db (some gu) user_id).1
          = PotResult.invalidCredentials) := by
  refine ⟨rfl, fun gu cu hf hne => ?_⟩
  simp [get_potential_friends, hf, hne]

/-- Witness for claim C10 on concrete data: with no authenticated
user, and with `bob` authenticated but requesting `alice`'s list, the
route answers `invalid-credentials`. -/
theorem potentials_own_list_only_witness :
    (get_potential_friends dist0 dbA none 1).1
        = PotResult.invalidCredentials ∧
    (get_potential_friends dist0 dbA (some bob) 1).1
        = PotResult.invalidCredentials :=
  ⟨(potentials_own_list_only dist0 dbA 1).1,
   (potentials_own_list_only dist0 dbA 1).2 bob alice (by decide) (by decide)⟩

/-- Claim C1: every candidate `c` returned by `potential_friends` for
requester `u` has, like `u`, coordinates on record, and the distance
between the two coordinate pairs is at most `u`'s radius and at most
`c`'s radius, i.e. at most the minimum of the two radii. -/
theorem potential_friends_mutual_radius (dist : Coords → Coords → ℚ)
    (u : User) (pool : List User) (ds : List Decision) (c : User)
    (h : c ∈ potential_friends dist u pool ds) :
    ∃ uc cc, u.coordinates = some uc ∧ c.coordinates = some cc ∧
      dist uc cc ≤ min u.friend_radius_miles c.friend_radius_miles := by
  have he := eligible_of_mem h
  rw [eligible] at he
  rcases hu : u.coordinates with _ | uc <;> rw [hu] at he
  · simp at he
  rcases hc : c.coordinates with _ | cc <;> rw [hc] at he
  · simp at he
  simp only [Bool.and_eq_true, decide_eq_true_eq] at he
  exact ⟨uc, cc, rfl, rfl, le_min he.2.1 he.2.2⟩

/-- Witness for claim C1 on concrete data: `bob` is a candidate for
`alice`, and the distance bound of the theorem holds for them. -/
theorem potential_friends_mutual_radius_witness :
    ∃ uc cc, alice.coordinates = some uc ∧ bob.coordinates = some cc ∧
      dist0 uc cc ≤ min alice.friend_radius_miles bob.friend_radius_miles :=
  potential_friends_mutual_radius dist0 alice [bob] [] bob (by decide)

/-- Claim C2: every candidate `c` returned by `potential_friends` for
requester `u` has no decision of either polarity from `u` to `c` in
the decision set, and no dislike from `c` to `u` (a like from `c` to
`u` is allowed). -/
theorem potential_friends_no_prior_decision (dist : Coords → Coords → ℚ)
    (u : User) (pool : List User) (ds : List Decision) (c : User)
    (h : c ∈ potential_friends dist u pool ds) :
    (∀ d ∈ ds, ¬(d.actor = u.id ∧ d.target = c.id)) ∧
    (∀ d ∈ ds, ¬(d.actor = c.id ∧ d.target = u.id ∧
        d.polarity = Polarity.dislike)) := by
  have he := eligible_of_mem h
  rw [eligible] at he
  simp only [Bool.and_eq_true, Bool.not_eq_true'] at he
  have h1 : hasDecision ds u.id c.id = false := he.1.1.2
  have h2 : hasDislike ds c.id u.id = false := he.1.2
  simp only [hasDecision, hasDislike, List.any_eq_false, Bool.and_eq_true,
    beq_iff_eq, not_and] at h1 h2
  exact ⟨fun d hd hc => h1 d hd hc.1 hc.2,
         fun d hd hc => h2 d hd ⟨hc.1, hc.2.1⟩ hc.2.2⟩

/-- Witness for claim C2 on concrete data: with a like recorded from
`bob` toward `alice`, `bob` is still a candidate for `alice`, and the
theorem's conclusions hold on that decision set. -/
theorem potential_friends_no_prior_decision_witness :
    (∀ d ∈ [Decision.mk 2 1 Polarity.like],
      ¬(d.actor = alice.id ∧ d.target = bob.id)) ∧
    (∀ d ∈ [Decision.mk 2 1 Polarity.like],
      ¬(d.actor = bob.id ∧ d.target = alice.id ∧
          d.polarity = Polarity.dislike)) :=
  potential_friends_no_prior_decision dist0 alice [bob]
    [Decision.mk 2 1 Polarity.like] bob (by decide)

/-- Claim C6: a requester or candidate with missing coordinates is
silently excluded: whenever either party's coordinates are absent, the
candidate is not in the result (and `potential_friends`, a total
function, still answers for the rest of the pool rather than
failing). -/
theorem potential_friends_missing_coords_excluded
    (dist : Coords → Coords → ℚ) (u : User) (pool : List User)
    (ds : List Decision) (c : User)
    (h : u.coordinates = none ∨ c.coordinates = none) :
    c ∉ potential_friends dist u pool ds := by
  intro hm
  have he := eligible_of_mem hm
  rw [eligible] at he
  rcases h with h | h
  · rw [h] at he
    simp at he
  · rw [h] at he
    rcases hu : u.coordinates with _ | uc <;> rw [hu] at he <;> simp at he

/-- Witness for claim C6 on concrete data: `carol` has no coordinates
on record, so `bob` is not among her candidates. -/
theorem potential_friends_missing_coords_excluded_witness :
    bob ∉ potential_friends dist0 carol [bob] [] :=
  potential_friends_missing_coords_excluded dist0 carol [bob] [] bob
    (Or.inl rfl)

/-- Claim C4: a like or dislike request from a logged-in user `gu` for
a target that exists but is not in `gu`'s current candidate list
answers the distinguishable `user-not-potential-friend` error and
leaves the database unchanged: no decision is recorded. -/
theorem like_dislike_not_candidate_rejected (dist : Coords → Coords → ℚ)
    (db : DB) (gu : User) (other_id : ℕ) (other : User)
    (hf : findUser db other_id = some other)
    (hm : other ∉ potential_friends dist gu db.users (decisionsOf db)) :
    like_potential_friend dist db (some gu) other_id
        = (LikeResult.notPotentialFriend, db) ∧
    dislike_potential_friend dist db (some gu) other_id
        = (LikeResult.notPotentialFriend, db) := by
  constructor <;>
    simp [like_potential_friend, dislike_potential_friend, hf, hm]

/-- Witness for claim C4 on concrete data: `alice` is never her own
candidate, so liking or disliking herself is rejected with
`user-not-potential-friend` and the database is unchanged. -/
theorem like_dislike_not_candidate_rejected_witness :
    like_potential_friend dist0 dbA (some alice) 1
        = (LikeResult.notPotentialFriend, dbA) ∧
    dislike_potential_friend dist0 dbA (some alice) 1
        = (LikeResult.notPotentialFriend, dbA) :=
  like_dislike_not_candidate_rejected dist0 dbA alice 1 alice
    (by decide) (by decide)

/-- Claim C5: liking the same target twice never produces two like
rows: after a successful like from `gu` for `other_id` (state `db1`),
repeating the same like request is rejected with
`user-not-potential-friend` and returns `db1` unchanged, because the
recorded like now excludes the target from `gu`'s candidate list. -/
theorem like_twice_rejected (dist : Coords → Coords → ℚ) (db : DB)
    (gu : User) (other_id : ℕ) (db1 : DB)
    (h : like_potential_friend dist db (some gu) other_id
          = (LikeResult.liked, db1)) :
    like_potential_friend dist db1 (some gu) other_id
        = (LikeResult.notPotentialFriend, db1) := by
  rcases hf : findUser db other_id with _ | other
  · simp [like_potential_friend, hf] at h
  by_cases hm : other ∈ potential_friends dist gu db.users (decisionsOf db)
  case neg => simp [like_potential_friend, hf, hm] at h
  have hdb : ({ db with likes := db.likes ++ [(gu.id, other.id)] } : DB)
      = db1 := by
    have h2 := h
    simp only [like_potential_friend, hf, hm, not_true_eq_false,
      if_false, Prod.mk.injEq] at h2
    exact h2.2
  subst hdb
  have hf2 : findUser
      { db with likes := db.likes ++ [(gu.id, other.id)] } other_id
        = some other := hf
  have hnot : other ∉ potential_friends dist gu
      ({ db with likes := db.likes ++ [(gu.id, other.id)] } : DB).users
      (decisionsOf { db with likes := db.likes ++ [(gu.id, other.id)] }) := by
    intro hmem
    have he := eligible_of_mem hmem
    rw [eligible] at he
    simp only [Bool.and_eq_true, Bool.not_eq_true'] at he
    have hdec := he.1.1.2
    have htrue : hasDecision
        (decisionsOf { db with likes := db.likes ++ [(gu.id, other.id)] })
        gu.id other.id = true := by
      rw [hasDecision]
      refine List.any_eq_true.mpr
        ⟨⟨gu.id, other.id, Polarity.like⟩, ?_, by simp⟩
      rw [decisionsOf]
      refine List.mem_append.mpr (Or.inl ?_)
      exact List.mem_map.mpr ⟨(gu.id, other.id), by simp, rfl⟩
    rw [htrue] at hdec
    exact absurd hdec (by decide)
  simp [like_potential_friend, hf2, hnot]

/-- Witness for claim C5 on concrete data: after `alice` successfully
likes `bob`, repeating the like is rejected and adds no second row. -/
theorem like_twice_rejected_witness :
    like_potential_friend dist0 dbABliked (some alice) 2
        = (LikeResult.notPotentialFriend, dbABliked) :=
  like_twice_rejected dist0 dbAB alice 2 dbABliked (by decide)

/-- Claim C9: whenever a like (resp. dislike) request does not answer
the success status, the handler has returned an error before appending
any row or committing, so the database is exactly as it was before the
call. -/
theorem like_dislike_error_atomic (dist : Coords → Coords → ℚ)
    (db : DB) (gUser : Option User) (other_id : ℕ) :
    ((like_potential_friend dist db gUser other_id).1
        ≠ LikeResult.liked →
      (like_potential_friend dist db gUser other_id).2 = db) ∧
    ((dislike_potential_friend dist db gUser other_id).1
        ≠ LikeResult.disliked →
      (dislike_potential_friend dist db gUser other_id).2 = db) := by
  constructor
  · rcases gUser with _ | gu
    · intro _; rfl
    rcases hf : findUser db other_id with _ | other
    · intro _
      simp [like_potential_friend, hf]
    by_cases hm : other ∈ potential_friends dist gu db.users (decisionsOf db)
    · intro hne
      exact absurd (show (like_potential_friend dist db (some gu)
          other_id).1 = LikeResult.liked by
        simp [like_potential_friend, hf, hm]) hne
    · intro _
      simp [like_potential_friend, hf, hm]
  · rcases gUser with _ | gu
    · intro _; rfl
    rcases hf : findUser db other_id with _ | other
    · intro _
      simp [dislike_potential_friend, hf]
    by_cases hm : other ∈ potential_friends dist gu db.users (decisionsOf db)
    · intro hne
      exact absurd (show (dislike_potential_friend dist db (some gu)
          other_id).1 = LikeResult.disliked by
        simp [dislike_potential_friend, hf, hm]) hne
    · intro _
      simp [dislike_potential_friend, hf, hm]

/-- Witness for claim C9 on concrete data: with no logged-in user both
routes answer an error and leave the database unchanged. -/
theorem like_dislike_error_atomic_witness :
    (like_potential_friend dist0 dbA none 1).2 = dbA ∧
    (dislike_potential_friend dist0 dbA none 1).2 = dbA :=
  ⟨(like_dislike_error_atomic dist0 dbA none 1).1 (by decide),
   (like_dislike_error_atomic dist0 dbA none 1).2 (by decide)⟩

end Friender
